import Mathlib

/-!
Verification of the send orchestration core of the gomail library
(file send.go). Go errors are modelled by their rendered text (String);
a Go function returning (T, error) becomes a Lean function returning
Except String T or a pair with Option String. The external collaborator
mail.ParseAddress is an abstract parameter p : String → Except String
String returning the canonical address of a single RFC 5322 mailbox or
a parse-error text.
-/

namespace Gomail

/-- A message is opaque to the core except for its header: a mapping from
field name to the ordered sequence of raw field values.  A Go map lookup
on a missing key yields the empty sequence. -/
structure Message where
  header : String → List String

/-- Modelled from the spec (the RcptError declaration is not in src):
one failed delivery attempt to one address, a recipient together with the
rendered cause. -/
structure RcptError where
  recipient : String
  cause : String
deriving DecidableEq

/-- Modelled from the spec (the RcptErrors declaration is not in src):
an ordered sequence of RcptError values. -/
abbrev RcptErrors := List RcptError

/-- Modelled from the spec (Rcpts is not in src): the ordered list of
affected recipient addresses. -/
def RcptErrors.Rcpts (es : RcptErrors) : List String :=
  es.map (fun e => e.recipient)

/-- Join a list of strings with a separator, as fmt does. -/
def joinSep (sep : String) : List String → String
  | [] => ""
  | [x] => x
  | x :: y :: rest => x ++ sep ++ joinSep sep (y :: rest)

/-- Modelled from the spec (the Error method of RcptErrors is not in src):
a rendered detail string concatenating the recipient and cause of each
entry. -/
def RcptErrors.Error (es : RcptErrors) : String :=
  joinSep "; " (es.map (fun e => e.recipient ++ ": " ++ e.cause))

/-- The rendering of a Go string slice under the fmt verb v:
space-joined elements inside square brackets. -/
def goSliceStr (xs : List String) : String :=
  "[" ++ joinSep " " xs ++ "]"

/-- One character of the fmt verb q (strconv.Quote): backslash,
double quote and the common control characters are escaped. -/
def goQuoteChar (c : Char) : String :=
  if c = '\\' then "\\\\"
  else if c = '"' then "\\\""
  else if c = '\n' then "\\n"
  else if c = '\t' then "\\t"
  else if c = '\r' then "\\r"
  else String.singleton c

/-- The fmt verb q applied to a string: a double-quoted, escaped form. -/
def goQuote (s : String) : String :=
  "\"" ++ String.join (s.data.map goQuoteChar) ++ "\""

/-- The transport abstraction of send.go (interface Sender): a full send,
a partial-failure-tolerant send, and the capability flag. -/
structure Sender where
  Send : String → List String → Message → Option String
  SkippableSend : String → List String → Message → RcptErrors × Option String
  SkipErrRcpt : Bool

/-- The function-adapter transport: SendFunc wraps one all-or-nothing
send function. -/
def SendFunc := String → List String → Message → Option String

/-- The three method implementations of SendFunc in send.go: Send calls
the function, SkippableSend returns (nil, f(...)), SkipErrRcpt is false. -/
def SendFunc.toSender (f : SendFunc) : Sender where
  Send := f
  SkippableSend := fun frm tos m => ([], f frm tos m)
  SkipErrRcpt := false

/-- The fixed prefix of the composite skip error in send.go. -/
def skipRcptErr : String := "gomail: email sent with skipped recipients"

/-- IsSkipRcptErr from send.go on a non-nil error: does the rendered
text start with the fixed prefix (strings.HasPrefix, modelled on the
character sequence of the text). -/
def IsSkipRcptErr (e : String) : Bool :=
  List.isPrefixOf skipRcptErr.data e.data

/-- A call of IsSkipRcptErr on a possibly-nil error value: on nil the Go
code dereferences the nil interface (calls Error on it) and produces no
boolean, modelled as none. -/
def IsSkipRcptErrCall : Option String → Option Bool
  | none => none
  | some e => some (IsSkipRcptErr e)

/-- The invalid-address error text of parseAddress: the quoted raw value
followed by the root parse error. -/
def invalidAddressErr (field e : String) : String :=
  "gomail: invalid address " ++ goQuote field ++ ": " ++ e

/-- parseAddress from send.go: parse via the external parser, wrapping a
failure as the invalid-address error that embeds the quoted raw value and
the root parse error. -/
def parseAddress (p : String → Except String String) (field : String) :
    Except String String :=
  match p field with
  | Except.error e => Except.error (invalidAddressErr field e)
  | Except.ok addr => Except.ok addr

/-- The error text of the missing-sender failure in getFrom. -/
def missingSenderErr : String :=
  "gomail: invalid message, \"From\" field is absent"

/-- getFrom from send.go: first value of the Sender field, falling back
to the From field when Sender is absent or empty, failing when both
are. -/
def getFrom (p : String → Except String String) (m : Message) :
    Except String String :=
  match m.header "Sender" with
  | a :: _ => parseAddress p a
  | [] =>
    match m.header "From" with
    | a :: _ => parseAddress p a
    | [] => Except.error missingSenderErr

/-- addAddress from send.go: linear membership check, append only when
absent. -/
def addAddress (list : List String) (addr : String) : List String :=
  if list.contains addr then list else list ++ [addr]

/-- The inner loop of getRecipients: parse each raw value of one field in
order, folding parsed addresses into the accumulated list via addAddress;
the first parse failure aborts. -/
def addParsed (p : String → Except String String) :
    List String → List String → Except String (List String)
  | list, [] => Except.ok list
  | list, a :: rest =>
    match parseAddress p a with
    | Except.error e => Except.error e
    | Except.ok addr => addParsed p (addAddress list addr) rest

/-- getRecipients from send.go: the To, Cc and Bcc fields in that fixed
order, each field in stored order, parsed and deduplicated. -/
def getRecipients (p : String → Except String String) (m : Message) :
    Except String (List String) :=
  match addParsed p [] (m.header "To") with
  | Except.error e => Except.error e
  | Except.ok l1 =>
    match addParsed p l1 (m.header "Cc") with
    | Except.error e => Except.error e
    | Except.ok l2 => addParsed p l2 (m.header "Bcc")

/-- send (lowercase) from send.go: extract the envelope, then dispatch on
the capability flag; returns the per-recipient errors and the hard
error. -/
def send (p : String → Except String String) (s : Sender) (m : Message) :
    RcptErrors × Option String :=
  match getFrom p m with
  | Except.error e => ([], some e)
  | Except.ok frm =>
    match getRecipients p m with
    | Except.error e => ([], some e)
    | Except.ok tos =>
      if s.SkipErrRcpt then s.SkippableSend frm tos m
      else
        match s.Send frm tos m with
        | some e => ([], some e)
        | none => ([], none)

/-- The position-wrapped hard error of Send, with the 1-based index. -/
def wrapHard (i : Nat) (e : String) : String :=
  "gomail: could not send email " ++ toString i ++ ": " ++ e

/-- The composite skip error rendered by Send when per-recipient errors
were collected. -/
def compositeSkipErr (es : RcptErrors) : String :=
  skipRcptErr ++ ": " ++ goSliceStr (RcptErrors.Rcpts es) ++ ", error: "
    ++ RcptErrors.Error es

/-- The loop of Send from send.go: i is the 1-based position of the next
message, acc the per-recipient errors collected so far. -/
def sendLoop (p : String → Except String String) (s : Sender) :
    Nat → RcptErrors → List Message → Option String
  | _, acc, [] => if acc.length > 0 then some (compositeSkipErr acc) else none
  | i, acc, m :: rest =>
    match send p s m with
    | (_, some e) => some (wrapHard i e)
    | (re, none) =>
        sendLoop p s (i + 1) (if re.length > 0 then acc ++ re else acc) rest

/-- Send (exported) from send.go: process the batch in order, fail fast
on a hard error, collect per-recipient errors, and render the composite
skip error at the end when any were collected. -/
def Send (p : String → Except String String) (s : Sender)
    (msgs : List Message) : Option String :=
  sendLoop p s 1 [] msgs

/-- The first-occurrence deduplication stated by the spec: keep each
address at the position of its first occurrence, dropping later
duplicates.  Stated from the spec words, to be compared with the foldl
over addAddress performed by the source. -/
def specDedup : List String → List String
  | [] => []
  | a :: rest => a :: specDedup (rest.filter (fun b => !(b == a)))
termination_by l => l.length
decreasing_by
  simp only [List.length_cons]
  exact Nat.lt_succ_of_le (List.length_filter_le _ _)

/-- The per-recipient errors a batch collects when no message hard-fails:
the concatenation of the first components of send over the batch. -/
def collectRcptErrs (p : String → Except String String) (s : Sender) :
    List Message → RcptErrors
  | [] => []
  | m :: rest => (send p s m).fst ++ collectRcptErrs p s rest

/-- One string is a substring of another: its character list is an infix. -/
def Substr (a b : String) : Prop := a.data <:+: b.data

instance (a b : String) : Decidable (Substr a b) :=
  inferInstanceAs (Decidable (a.data <:+: b.data))

/-- Parse every value of a list, failing on the first parse error: the
hypothesis shape for a batch of header values that all parse. -/
def parseAll (p : String → Except String String) :
    List String → Except String (List String)
  | [] => Except.ok []
  | x :: rest =>
    match p x with
    | Except.error e => Except.error e
    | Except.ok a =>
      match parseAll p rest with
      | Except.error e => Except.error e
      | Except.ok as => Except.ok (a :: as)

/-- A trivial concrete parser for witnesses: every value is already a
canonical address. -/
def okParse : String → Except String String := fun s => Except.ok s

/-- A concrete parser for witnesses that rejects one malformed value. -/
def failParse : String → Except String String := fun s =>
  if s = "Bad <>" then Except.error "mail: no address" else Except.ok s

/-- Concrete message for witnesses: a From sender and a To list with a
duplicate. -/
def msgA : Message :=
  ⟨fun f =>
    if f = "From" then ["a@x.com"]
    else if f = "To" then ["b@x.com", "b@x.com", "c@x.com"]
    else []⟩

/-- Concrete message for witnesses: no header fields at all. -/
def msgEmpty : Message := ⟨fun _ => []⟩

/-- Concrete message for witnesses: both Sender and From present. -/
def msgSenderFrom : Message :=
  ⟨fun f =>
    if f = "Sender" then ["s@x.com"]
    else if f = "From" then ["a@x.com"]
    else []⟩

/-- Concrete message for witnesses: a To list with one malformed value
between two good ones. -/
def msgBadTo : Message :=
  ⟨fun f =>
    if f = "From" then ["a@x.com"]
    else if f = "To" then ["good@x.com", "Bad <>", "later@x.com"]
    else []⟩

/-- Concrete all-or-nothing send function for witnesses: always
succeeds. -/
def fAll : SendFunc := fun _ _ _ => none

/-- Concrete skip-capable transport for witnesses: reports one skipped
recipient and no hard error. -/
def senderSkip : Sender where
  Send := fun _ _ _ => none
  SkippableSend := fun _ _ _ => ([⟨"c@x.com", "550 user unknown"⟩], none)
  SkipErrRcpt := true

/-- Concrete skip-capable transport for witnesses: reports one skipped
recipient together with a hard error. -/
def senderSkipHard : Sender where
  Send := fun _ _ _ => none
  SkippableSend := fun _ _ _ =>
    ([⟨"c@x.com", "550 user unknown"⟩], some "connection reset")
  SkipErrRcpt := true

/-! Helper lemmas. -/

theorem substr_refl (a : String) : Substr a a := List.infix_refl _

theorem substr_append_right (a b c : String) (h : Substr a b) :
    Substr a (b ++ c) := by
  obtain ⟨u, v, huv⟩ := h
  refine ⟨u, v ++ c.data, ?_⟩
  rw [String.data_append, ← huv]
  simp [List.append_assoc]

theorem substr_append_left (a b c : String) (h : Substr a b) :
    Substr a (c ++ b) := by
  obtain ⟨u, v, huv⟩ := h
  refine ⟨c.data ++ u, v, ?_⟩
  rw [String.data_append, ← huv]
  simp [List.append_assoc]

theorem charPrefixDecide (l1 : List Char) :
    ∀ l2 : List Char, l1.isPrefixOf l2 = true ↔ l1 <+: l2 := by
  induction l1 with
  | nil => intro l2; simp [List.isPrefixOf]
  | cons a t ih =>
    intro l2
    cases l2 with
    | nil => simp [List.isPrefixOf]
    | cons b u =>
      simp [List.isPrefixOf, List.cons_prefix_cons, ih, Bool.and_eq_true,
        beq_iff_eq]

theorem substr_joinSep (sep : String) (xs : List String) (x : String)
    (hx : x ∈ xs) : Substr x (joinSep sep xs) := by
  induction xs with
  | nil => cases hx
  | cons y rest ih =>
    cases rest with
    | nil =>
      have hxy : x = y := by simpa using hx
      subst hxy
      exact substr_refl x
    | cons z t =>
      rcases List.mem_cons.mp hx with h | h
      · subst h
        show Substr x (x ++ sep ++ joinSep sep (z :: t))
        exact substr_append_right _ _ _ (substr_append_right _ _ _ (substr_refl x))
      · show Substr x (y ++ sep ++ joinSep sep (z :: t))
        exact substr_append_left _ _ _ (ih h)

theorem skipRcptErr_prefix_composite (es : RcptErrors) :
    skipRcptErr.data <+: (compositeSkipErr es).data := by
  unfold compositeSkipErr
  simp only [String.data_append]
  exact ((List.prefix_append _ _).trans (List.prefix_append _ _)).trans
    ((List.prefix_append _ _).trans (List.prefix_append _ _))

theorem isSkipRcptErr_composite (es : RcptErrors) :
    IsSkipRcptErr (compositeSkipErr es) = true := by
  unfold IsSkipRcptErr
  exact (charPrefixDecide _ _).mpr (skipRcptErr_prefix_composite es)

theorem isSkipRcptErr_wrapHard (i : Nat) (e : String) :
    IsSkipRcptErr (wrapHard i e) = false := by
  unfold IsSkipRcptErr wrapHard
  rw [Bool.eq_false_iff]
  intro h
  rw [charPrefixDecide] at h
  simp only [String.data_append, List.append_assoc] at h
  rcases List.prefix_or_prefix_of_prefix (List.prefix_append
      "gomail: could not send email ".data _) h with h1 | h1
  · exact absurd h1 (by decide)
  · exact absurd h1 (by decide)

/-! Claim theorems. -/

/-- Claim C9: the function-adapter transport always reports the
capability flag false, its SkippableSend returns the wrapped function
result as the hard error with an empty per-recipient error set, and its
Send calls the wrapped function. -/
theorem C9_sendFunc_adapter (f : SendFunc) :
    (SendFunc.toSender f).SkipErrRcpt = false ∧
    ∀ frm tos m,
      (SendFunc.toSender f).SkippableSend frm tos m = ([], f frm tos m) ∧
      (SendFunc.toSender f).Send frm tos m = f frm tos m :=
  ⟨rfl, fun _ _ _ => ⟨rfl, rfl⟩⟩

/-- Claim C6: when both the Sender and From fields are present, the
derived envelope-from is the parsed canonical address of the first value
of the Sender field, never a value of From. -/
theorem C6_sender_wins (p : String → Except String String) (m : Message)
    (s0 a : String) (ss fs : List String) (f0 : String)
    (hS : m.header "Sender" = s0 :: ss) (_hF : m.header "From" = f0 :: fs)
    (hp : p s0 = Except.ok a) :
    getFrom p m = Except.ok a := by
  simp only [getFrom, parseAddress, hS, hp]

/-- Claim C6 witness: a concrete message carrying both Sender and From
derives the Sender address. -/
theorem C6_sender_wins_witness :
    msgSenderFrom.header "Sender" = ["s@x.com"] ∧
    msgSenderFrom.header "From" = ["a@x.com"] ∧
    okParse "s@x.com" = Except.ok "s@x.com" ∧
    getFrom okParse msgSenderFrom = Except.ok "s@x.com" :=
  ⟨rfl, rfl, rfl,
    C6_sender_wins okParse msgSenderFrom "s@x.com" "s@x.com" [] [] "a@x.com"
      rfl rfl rfl⟩

/-- Claim C7: when the Sender field is absent or empty, envelope-from
derivation falls back to the first From value, and when both are absent
or empty it fails with the missing-sender error. -/
theorem C7_from_fallback (p : String → Except String String) (m : Message)
    (hS : m.header "Sender" = []) :
    (∀ f0 fs, m.header "From" = f0 :: fs → getFrom p m = parseAddress p f0) ∧
    (m.header "From" = [] → getFrom p m = Except.error missingSenderErr) := by
  constructor
  · intro f0 fs hF
    simp only [getFrom, hS, hF]
  · intro hF
    simp only [getFrom, hS, hF]

/-- Claim C7 witness: a concrete message with From only falls back to
From, and a message with neither field fails with the missing-sender
error. -/
theorem C7_from_fallback_witness :
    msgA.header "Sender" = [] ∧
    getFrom okParse msgA = parseAddress okParse "a@x.com" ∧
    msgEmpty.header "From" = [] ∧
    getFrom okParse msgEmpty = Except.error missingSenderErr :=
  ⟨rfl,
    (C7_from_fallback okParse msgA rfl).1 "a@x.com" [] rfl,
    rfl,
    (C7_from_fallback okParse msgEmpty rfl).2 rfl⟩

theorem filter_contains_append (t acc : List String) (x : String) :
    t.filter (fun a => !((acc ++ [x]).contains a)) =
      (t.filter (fun a => !(acc.contains a))).filter (fun b => !(b == x)) := by
  rw [List.filter_filter]
  apply List.filter_congr
  intro a _
  simp only [List.contains_eq_any_beq, List.any_append, beq_eq_decide]
  simp [Bool.not_or, Bool.and_comm]

theorem foldl_addAddress_eq (pv : List String) :
    ∀ acc : List String,
      List.foldl addAddress acc pv =
        acc ++ specDedup (pv.filter (fun a => !(acc.contains a))) := by
  induction pv with
  | nil => intro acc; simp [specDedup]
  | cons x t ih =>
    intro acc
    rw [List.foldl_cons]
    cases hx : acc.contains x with
    | true =>
      have hmem : x ∈ acc := by simpa using hx
      have h1 : addAddress acc x = acc := by simp [addAddress, hmem]
      rw [h1, ih acc, List.filter_cons]
      simp [hmem]
    | false =>
      have hmem : x ∉ acc := by simpa using hx
      have h1 : addAddress acc x = acc ++ [x] := by simp [addAddress, hmem]
      rw [h1, ih (acc ++ [x]), List.filter_cons, filter_contains_append]
      simp [hmem, specDedup, List.append_assoc]

theorem specDedup_sublist (l : List String) : List.Sublist (specDedup l) l := by
  induction l using specDedup.induct with
  | case1 => simp [specDedup]
  | case2 a rest ih =>
    simp only [specDedup]
    exact List.Sublist.cons₂ a (ih.trans (List.filter_sublist rest))

theorem specDedup_count (l : List String) (a : String) (ha : a ∈ l) :
    (specDedup l).count a = 1 := by
  induction l using specDedup.induct with
  | case1 => cases ha
  | case2 b rest ih =>
    simp only [specDedup]
    rcases List.mem_cons.mp ha with h | h
    · subst h
      rw [List.count_cons_self]
      have hnot : a ∉ specDedup (rest.filter (fun x => !(x == a))) := by
        intro hmem
        have := (specDedup_sublist _).subset hmem
        have := (List.mem_filter.mp this).2
        simp at this
      rw [List.count_eq_zero.mpr hnot]
    · by_cases hab : a = b
      · subst hab
        rw [List.count_cons_self]
        have hnot : a ∉ specDedup (rest.filter (fun x => !(x == a))) := by
          intro hmem
          have := (specDedup_sublist _).subset hmem
          have := (List.mem_filter.mp this).2
          simp at this
        rw [List.count_eq_zero.mpr hnot]
      · rw [List.count_cons_of_ne hab]
        apply ih
        exact List.mem_filter.mpr ⟨h, by simp [hab]⟩

theorem addParsed_append (p : String → Except String String)
    (xs : List String) :
    ∀ (acc ys : List String),
      addParsed p acc (xs ++ ys) =
        match addParsed p acc xs with
        | Except.error e => Except.error e
        | Except.ok l => addParsed p l ys := by
  induction xs with
  | nil => intro acc ys; simp [addParsed]
  | cons x t ih =>
    intro acc ys
    simp only [List.cons_append, addParsed]
    cases parseAddress p x with
    | error e => rfl
    | ok a => exact ih (addAddress acc a) ys

theorem getRecipients_eq_addParsed (p : String → Except String String)
    (m : Message) :
    getRecipients p m =
      addParsed p [] (m.header "To" ++ m.header "Cc" ++ m.header "Bcc") := by
  unfold getRecipients
  rw [addParsed_append, addParsed_append]
  cases addParsed p [] (m.header "To") with
  | error e => rfl
  | ok l1 =>
    cases addParsed p l1 (m.header "Cc") with
    | error e => rfl
    | ok l2 => rfl

theorem parseAll_addParsed (p : String → Except String String)
    (xs : List String) :
    ∀ (pv acc : List String), parseAll p xs = Except.ok pv →
      addParsed p acc xs = Except.ok (List.foldl addAddress acc pv) := by
  induction xs with
  | nil =>
    intro pv acc h
    simp only [parseAll] at h
    cases h
    simp [addParsed]
  | cons x t ih =>
    intro pv acc h
    simp only [parseAll] at h
    cases hpx : p x with
    | error e => rw [hpx] at h; cases h
    | ok a =>
      rw [hpx] at h
      cases hpt : parseAll p t with
      | error e => rw [hpt] at h; cases h
      | ok as =>
        rw [hpt] at h
        cases h
        simp only [addParsed, parseAddress, hpx, List.foldl_cons]
        exact ih as (addAddress acc a) hpt

theorem addParsed_firstFail (p : String → Except String String)
    (v e : String) (hv : p v = Except.error e) (xs : List String) :
    ∀ (acc rest : List String), (∀ x ∈ xs, (p x).isOk = true) →
      addParsed p acc (xs ++ v :: rest) =
        Except.error (invalidAddressErr v e) := by
  induction xs with
  | nil =>
    intro acc rest _
    simp [addParsed, parseAddress, hv]
  | cons x t ih =>
    intro acc rest hok
    have hx : (p x).isOk = true := hok x (List.mem_cons_self x t)
    cases hpx : p x with
    | error e2 => rw [hpx] at hx; simp [Except.isOk, Except.toBool] at hx
    | ok a =>
      simp only [List.cons_append, addParsed, parseAddress, hpx]
      exact ih (addAddress acc a) rest
        (fun y hy => hok y (List.mem_cons_of_mem x hy))

/-- Claim C2 counterexample: calling IsSkipRcptErr on a nil error does
not return false; the Go code dereferences the nil error, so no boolean
is produced at all. -/
theorem C2_cex_nil_call : IsSkipRcptErrCall none ≠ some false := by
  decide

/-- Claim C2 amended: IsSkipRcptErr is true exactly when the rendered
text starts with the fixed prefix; it is true for every composite skip
error, false for every position-wrapped hard error Send produces, and a
call on a nil error produces no boolean at all (the nil case is guarded
by the caller). -/
theorem C2_skip_predicate (e0 : String) :
    (IsSkipRcptErr e0 = true ↔ skipRcptErr.data <+: e0.data) ∧
    (∀ es : RcptErrors, IsSkipRcptErr (compositeSkipErr es) = true) ∧
    (∀ (i : Nat) (cause : String), IsSkipRcptErr (wrapHard i cause) = false) ∧
    IsSkipRcptErrCall none = none :=
  ⟨charPrefixDecide skipRcptErr.data e0.data, isSkipRcptErr_composite,
    isSkipRcptErr_wrapHard, rfl⟩

/-- Claim C5: when every To, Cc and Bcc value parses, the derived
recipient list is the first-occurrence deduplication of the parsed
values taken in To, Cc, Bcc order: it is a subsequence of the parsed
values containing each address exactly once. -/
theorem C5_recipients_dedup (p : String → Except String String)
    (m : Message) (pv : List String)
    (h : parseAll p (m.header "To" ++ m.header "Cc" ++ m.header "Bcc") =
      Except.ok pv) :
    getRecipients p m = Except.ok (specDedup pv) ∧
    List.Sublist (specDedup pv) pv ∧
    (∀ a ∈ pv, (specDedup pv).count a = 1) := by
  refine ⟨?_, specDedup_sublist pv, fun a ha => specDedup_count pv a ha⟩
  rw [getRecipients_eq_addParsed, parseAll_addParsed p _ pv [] h]
  rw [foldl_addAddress_eq pv []]
  simp

/-- Claim C5 witness: the concrete message with a duplicated To value
derives each address once, in first-occurrence order. -/
theorem C5_recipients_dedup_witness :
    parseAll okParse
        (msgA.header "To" ++ msgA.header "Cc" ++ msgA.header "Bcc") =
      Except.ok ["b@x.com", "b@x.com", "c@x.com"] ∧
    getRecipients okParse msgA = Except.ok ["b@x.com", "c@x.com"] := by
  refine ⟨rfl, ?_⟩
  have h := (C5_recipients_dedup okParse msgA
    ["b@x.com", "b@x.com", "c@x.com"] rfl).1
  rw [h]
  simp [specDedup]

/-- Claim C8: a header value the parser rejects yields the
invalid-address error embedding the quoted raw value and the root parse
error, and the first such value in To, Cc, Bcc traversal order aborts
recipient derivation for the whole message with that error and no
recipient list. -/
theorem C8_invalid_address_aborts (p : String → Except String String)
    (m : Message) (v e : String) (pre rest : List String)
    (hsplit : m.header "To" ++ m.header "Cc" ++ m.header "Bcc" =
      pre ++ v :: rest)
    (hpre : ∀ x ∈ pre, (p x).isOk = true)
    (hv : p v = Except.error e) :
    parseAddress p v = Except.error (invalidAddressErr v e) ∧
    Substr (goQuote v) (invalidAddressErr v e) ∧
    Substr e (invalidAddressErr v e) ∧
    getRecipients p m = Except.error (invalidAddressErr v e) := by
  refine ⟨by simp [parseAddress, hv], ?_, ?_, ?_⟩
  · unfold invalidAddressErr
    exact substr_append_right _ _ _ (substr_append_right _ _ _
      (substr_append_left _ _ _ (substr_refl (goQuote v))))
  · unfold invalidAddressErr
    exact substr_append_left _ _ _ (substr_refl e)
  · rw [getRecipients_eq_addParsed, hsplit]
    exact addParsed_firstFail p v e hv pre [] rest hpre

/-- Claim C8 witness: a concrete To list with one malformed value between
two good ones aborts recipient derivation with the invalid-address error
naming the raw value. -/
theorem C8_invalid_address_aborts_witness :
    failParse "Bad <>" = Except.error "mail: no address" ∧
    getRecipients failParse msgBadTo =
      Except.error (invalidAddressErr "Bad <>" "mail: no address") := by
  refine ⟨rfl, ?_⟩
  exact (C8_invalid_address_aborts failParse msgBadTo "Bad <>"
    "mail: no address" ["good@x.com"] ["later@x.com"] rfl
    (by intro x hx; simp at hx; subst hx; rfl) rfl).2.2.2

theorem guard_append (acc re : RcptErrors) :
    (if re.length > 0 then acc ++ re else acc) = acc ++ re := by
  cases re <;> simp

theorem sendLoop_allOk (p : String → Except String String) (s : Sender)
    (msgs : List Message) :
    ∀ (i : Nat) (acc : RcptErrors),
      (∀ m ∈ msgs, (send p s m).snd = none) →
      sendLoop p s i acc msgs =
        (if (acc ++ collectRcptErrs p s msgs).length > 0
         then some (compositeSkipErr (acc ++ collectRcptErrs p s msgs))
         else none) := by
  induction msgs with
  | nil => intro i acc _; simp [sendLoop, collectRcptErrs]
  | cons m rest ih =>
    intro i acc h
    have hm : (send p s m).snd = none := h m (List.mem_cons_self m rest)
    cases hsend : send p s m with
    | mk re e =>
      rw [hsend] at hm
      simp only at hm
      subst hm
      simp only [sendLoop, hsend, guard_append]
      rw [ih (i + 1) (acc ++ re)
        (fun m2 hm2 => h m2 (List.mem_cons_of_mem m hm2))]
      simp [collectRcptErrs, hsend, List.append_assoc]

theorem sendLoop_firstFail (p : String → Except String String) (s : Sender)
    (bad : Message) (e : String)
    (hbad : (send p s bad).snd = some e) (good : List Message) :
    ∀ (i : Nat) (acc : RcptErrors) (rest : List Message),
      (∀ m ∈ good, (send p s m).snd = none) →
      sendLoop p s i acc (good ++ bad :: rest) =
        some (wrapHard (i + good.length) e) := by
  induction good with
  | nil =>
    intro i acc rest _
    cases hsend : send p s bad with
    | mk re e2 =>
      rw [hsend] at hbad
      simp only at hbad
      subst hbad
      simp [sendLoop, hsend]
  | cons g t ih =>
    intro i acc rest hok
    have hm : (send p s g).snd = none := hok g (List.mem_cons_self g t)
    cases hsend : send p s g with
    | mk re e2 =>
      rw [hsend] at hm
      simp only at hm
      subst hm
      simp only [List.cons_append, sendLoop, hsend, guard_append]
      rw [List.append_eq]
      rw [ih (i + 1) (acc ++ re) rest
        (fun m2 hm2 => hok m2 (List.mem_cons_of_mem g hm2))]
      have harith : i + 1 + t.length = i + (g :: t).length := by
        simp [List.length_cons]
        omega
      rw [harith]

theorem substr_rcpt_composite (es : RcptErrors) (re : RcptError)
    (hre : re ∈ es) :
    Substr re.recipient (compositeSkipErr es) ∧
    Substr (re.recipient ++ ": " ++ re.cause) (compositeSkipErr es) := by
  constructor
  · have h1 : re.recipient ∈ RcptErrors.Rcpts es :=
      List.mem_map_of_mem (fun x => x.recipient) hre
    have h2 : Substr re.recipient (joinSep " " (RcptErrors.Rcpts es)) :=
      substr_joinSep " " _ _ h1
    have h3 : Substr re.recipient (goSliceStr (RcptErrors.Rcpts es)) := by
      unfold goSliceStr
      exact substr_append_right _ _ "]" (substr_append_left _ _ "[" h2)
    unfold compositeSkipErr
    exact substr_append_right _ _ _
      (substr_append_right _ _ _ (substr_append_left _ _ _ h3))
  · have h1 : re.recipient ++ ": " ++ re.cause ∈
        es.map (fun x => x.recipient ++ ": " ++ x.cause) :=
      List.mem_map_of_mem (fun x => x.recipient ++ ": " ++ x.cause) hre
    have h2 : Substr (re.recipient ++ ": " ++ re.cause)
        (RcptErrors.Error es) := substr_joinSep "; " _ _ h1
    unfold compositeSkipErr
    exact substr_append_left _ _ _ h2

/-- Claim C1: over a batch in which every message extracts its envelope
and sends with no hard error, Send returns nil when no per-recipient
error was collected, and otherwise returns the composite error whose
text starts with the fixed skip prefix and embeds every affected
recipient and the rendered detail of every collected RcptError. -/
theorem C1_batch_composite (p : String → Except String String) (s : Sender)
    (msgs : List Message)
    (h : ∀ m ∈ msgs, (send p s m).snd = none) :
    (collectRcptErrs p s msgs = [] → Send p s msgs = none) ∧
    (collectRcptErrs p s msgs ≠ [] →
      Send p s msgs = some (compositeSkipErr (collectRcptErrs p s msgs)) ∧
      skipRcptErr.data <+:
        (compositeSkipErr (collectRcptErrs p s msgs)).data ∧
      ∀ re ∈ collectRcptErrs p s msgs,
        Substr re.recipient (compositeSkipErr (collectRcptErrs p s msgs)) ∧
        Substr (re.recipient ++ ": " ++ re.cause)
          (compositeSkipErr (collectRcptErrs p s msgs))) := by
  have hloop := sendLoop_allOk p s msgs 1 [] h
  rw [List.nil_append] at hloop
  constructor
  · intro hnil
    unfold Send
    rw [hloop, hnil]
    simp
  · intro hne
    refine ⟨?_, skipRcptErr_prefix_composite _,
      fun re hre => substr_rcpt_composite _ re hre⟩
    unfold Send
    rw [hloop]
    cases hc : collectRcptErrs p s msgs with
    | nil => exact absurd hc hne
    | cons r t => simp [hc]

/-- Claim C1 witness: one message over a skip-capable transport that
reports one skipped recipient makes Send return the composite skip
error. -/
theorem C1_batch_composite_witness :
    (∀ m ∈ [msgA], (send okParse senderSkip m).snd = none) ∧
    collectRcptErrs okParse senderSkip [msgA] ≠ [] ∧
    Send okParse senderSkip [msgA] =
      some (compositeSkipErr (collectRcptErrs okParse senderSkip [msgA])) :=
  ⟨by decide, by decide,
    ((C1_batch_composite okParse senderSkip [msgA] (by decide)).2
      (by decide)).1⟩

/-- Claim C3: after successful envelope extraction the orchestrator
dispatches on the capability flag: when it is true the result of send is
exactly the SkippableSend result and its per-recipient errors are
appended to the batch accumulator; when it is false the result is
determined by one Send call on the derived envelope, and a nil result
makes the batch return nil. -/
theorem C3_capability_dispatch (p : String → Except String String)
    (s : Sender) (m : Message) (frm : String) (tos : List String)
    (hF : getFrom p m = Except.ok frm)
    (hR : getRecipients p m = Except.ok tos) :
    (s.SkipErrRcpt = true →
      send p s m = s.SkippableSend frm tos m ∧
      ∀ (i : Nat) (acc : RcptErrors) (rest : List Message)
        (re : RcptErrors),
        s.SkippableSend frm tos m = (re, none) →
        sendLoop p s i acc (m :: rest) =
          sendLoop p s (i + 1) (acc ++ re) rest) ∧
    (s.SkipErrRcpt = false →
      send p s m = ([], s.Send frm tos m) ∧
      (s.Send frm tos m = none → Send p s [m] = none)) := by
  constructor
  · intro hskip
    have hs : send p s m = s.SkippableSend frm tos m := by
      simp [send, hF, hR, hskip]
    refine ⟨hs, ?_⟩
    intro i acc rest re hre
    rw [hre] at hs
    simp [sendLoop, hs, guard_append]
  · intro hskip
    have hs : send p s m = ([], s.Send frm tos m) := by
      cases hsend : s.Send frm tos m with
      | none => simp [send, hF, hR, hskip, hsend]
      | some e => simp [send, hF, hR, hskip, hsend]
    refine ⟨hs, ?_⟩
    intro hnone
    rw [hnone] at hs
    unfold Send
    simp [sendLoop, hs]

/-- Claim C3 witness: end-to-end scenario A: a message with a duplicated
To value over the function adapter derives from a@x.com and the
deduplicated recipients, and a nil transport result makes Send return
nil. -/
theorem C3_capability_dispatch_witness :
    getFrom okParse msgA = Except.ok "a@x.com" ∧
    getRecipients okParse msgA = Except.ok ["b@x.com", "c@x.com"] ∧
    (SendFunc.toSender fAll).SkipErrRcpt = false ∧
    Send okParse (SendFunc.toSender fAll) [msgA] = none :=
  ⟨rfl, rfl, rfl,
    ((C3_capability_dispatch okParse (SendFunc.toSender fAll) msgA "a@x.com"
      ["b@x.com", "c@x.com"] rfl rfl).2 rfl).2 rfl⟩

/-- Claim C4: the first message whose envelope extraction or transport
call hard-fails aborts the batch: Send returns the position-wrapped
error naming the 1-based index and embedding the cause, and the result
does not depend on the messages after the failing one. -/
theorem C4_fail_fast (p : String → Except String String) (s : Sender)
    (good : List Message) (bad : Message) (rest : List Message)
    (e : String)
    (hgood : ∀ m ∈ good, (send p s m).snd = none)
    (hbad : (send p s bad).snd = some e) :
    Send p s (good ++ bad :: rest) =
      some (wrapHard (good.length + 1) e) ∧
    Substr e (wrapHard (good.length + 1) e) ∧
    ∀ rest2, Send p s (good ++ bad :: rest2) =
      some (wrapHard (good.length + 1) e) := by
  have hmain : ∀ r : List Message, Send p s (good ++ bad :: r) =
      some (wrapHard (good.length + 1) e) := by
    intro r
    unfold Send
    rw [sendLoop_firstFail p s bad e hbad good 1 [] r hgood]
    rw [Nat.add_comm 1 good.length]
  refine ⟨hmain rest, ?_, hmain⟩
  unfold wrapHard
  exact substr_append_left _ _ _ (substr_refl e)

/-- Claim C4 witness: a batch whose first message lacks both Sender and
From fails with index 1 and the second message does not change the
result. -/
theorem C4_fail_fast_witness :
    (send okParse senderSkip msgEmpty).snd = some missingSenderErr ∧
    Send okParse senderSkip [msgEmpty, msgA] =
      some (wrapHard 1 missingSenderErr) := by
  refine ⟨rfl, ?_⟩
  exact (C4_fail_fast okParse senderSkip [] msgEmpty [msgA]
    missingSenderErr (by decide) rfl).1

/-- Claim C10: when some message in a batch hard-fails from
SkippableSend, Send returns only the position-wrapped hard error for
that message; the per-recipient errors returned alongside it and those
collected from earlier messages are absent from the result, which is
not a composite skip error. -/
theorem C10_skippable_hard_discards (p : String → Except String String)
    (s : Sender) (good : List Message) (bad : Message)
    (rest : List Message) (frm : String) (tos : List String)
    (reBad : RcptErrors) (e : String)
    (hgood : ∀ m ∈ good, (send p s m).snd = none)
    (hskip : s.SkipErrRcpt = true)
    (hF : getFrom p bad = Except.ok frm)
    (hR : getRecipients p bad = Except.ok tos)
    (hss : s.SkippableSend frm tos bad = (reBad, some e)) :
    Send p s (good ++ bad :: rest) =
      some (wrapHard (good.length + 1) e) ∧
    IsSkipRcptErr (wrapHard (good.length + 1) e) = false := by
  have hbad : (send p s bad).snd = some e := by
    simp [send, hF, hR, hskip, hss]
  constructor
  · unfold Send
    rw [sendLoop_firstFail p s bad e hbad good 1 [] rest hgood]
    rw [Nat.add_comm 1 good.length]
  · exact isSkipRcptErr_wrapHard _ e

/-- Claim C10 witness: a skip-capable transport that returns one
per-recipient error together with a hard error makes Send return only
the position-wrapped hard error; the recipient error is discarded. -/
theorem C10_skippable_hard_discards_witness :
    senderSkipHard.SkippableSend "a@x.com" ["b@x.com", "c@x.com"] msgA =
      ([⟨"c@x.com", "550 user unknown"⟩], some "connection reset") ∧
    Send okParse senderSkipHard [msgA] =
      some (wrapHard 1 "connection reset") := by
  refine ⟨rfl, ?_⟩
  exact (C10_skippable_hard_discards okParse senderSkipHard [] msgA []
    "a@x.com" ["b@x.com", "c@x.com"] [⟨"c@x.com", "550 user unknown"⟩]
    "connection reset" (by decide) rfl rfl rfl rfl).1

end Gomail
